import Mathlib

/-!
Verification development for the external-sync-bridge synchronization engine
(source: src/main.ts). The engine is shallowly embedded: Node path handling
(POSIX flavor, path separator "/"), the filesystem, glob matching and timers
are modelled as explicit data; every definition is executable so that claims
can be evaluated on concrete inputs.

String processing is implemented over the underlying character lists
(String.data) with structural recursion only, so that all definitions reduce
inside the kernel.
-/

namespace ESB

/-! ### String helpers (JS string operations used by the source) -/

/-- Whitespace as removed by the JS String trim method (ASCII subset that can
occur in configured paths). -/
def isJsSpace (c : Char) : Bool :=
  c = ' ' || c = '\t' || c = '\n' || c = '\r'

/-- Drop leading whitespace from a character list. -/
def dropLeadingSpace : List Char → List Char
  | [] => []
  | c :: cs => if isJsSpace c then dropLeadingSpace cs else c :: cs

/-- JS String.prototype.trim, modelled on character lists. -/
def jsTrim (s : String) : String :=
  ⟨(dropLeadingSpace (dropLeadingSpace s.data).reverse).reverse⟩

/-- Prefix test on character lists. -/
def listStartsWith [DecidableEq α] : List α → List α → Bool
  | _, [] => true
  | [], _ :: _ => false
  | a :: as, b :: bs => a = b && listStartsWith as bs

/-- JS String.prototype.startsWith. -/
def strStartsWith (s pre : String) : Bool :=
  listStartsWith s.data pre.data

/-- JS String.prototype.endsWith. -/
def strEndsWith (s suf : String) : Bool :=
  listStartsWith s.data.reverse suf.data.reverse

/-- Split a character list at every occurrence of the separator character. -/
def splitCharsAux (sep : Char) : List Char → List Char → List (List Char)
  | [], acc => [acc.reverse]
  | c :: cs, acc =>
    if c = sep then acc.reverse :: splitCharsAux sep cs []
    else splitCharsAux sep cs (c :: acc)

/-- JS String.prototype.split with a single-character separator. -/
def strSplitOn (s : String) (sep : Char) : List String :=
  (splitCharsAux sep s.data []).map (fun l => ⟨l⟩)

/-- JS Array.prototype.join with a single-character separator. -/
def strJoinSep (sep : Char) : List String → String
  | [] => ""
  | [s] => s
  | s :: rest => s ++ ⟨[sep]⟩ ++ strJoinSep sep rest

/-! ### POSIX path model (Node path module, path.sep = "/") -/

/-- One step of lexical path normalization: push a path segment onto the stack
of already-normalized segments (stored in reverse), resolving "." and "..". -/
def normStack (isAbs : Bool) (stack : List String) (seg : String) : List String :=
  if seg = "" || seg = "." then stack
  else if seg = ".." then
    match stack with
    | [] => if isAbs then [] else [".."]
    | top :: rest => if top = ".." then seg :: top :: rest else rest
  else seg :: stack

/-- Normalized segment list of a path (leading slash decides absolute mode). -/
def normSegsOf (isAbs : Bool) (p : String) : List String :=
  ((strSplitOn p '/').foldl (normStack isAbs) []).reverse

/-- Node path.normalize for POSIX paths: collapses duplicate separators,
resolves "." and "..", keeps a trailing separator, returns "." for an empty
relative result. -/
def posixNormalize (p : String) : String :=
  if p = "" then "." else
  let isAbs := strStartsWith p "/"
  let segs := normSegsOf isAbs p
  let trailing := strEndsWith p "/"
  let body := strJoinSep '/' segs
  if isAbs then
    if body = "" then "/" else "/" ++ body ++ (if trailing then "/" else "")
  else
    if body = "" then (if trailing then "./" else ".")
    else body ++ (if trailing then "/" else "")

/-- Node path.isAbsolute for POSIX paths. -/
def posixIsAbsolute (p : String) : Bool :=
  strStartsWith p "/"

/-- Node path.join for two POSIX path parts. -/
def posixJoin (a b : String) : String :=
  let joined := if a = "" then b else if b = "" then a else a ++ "/" ++ b
  if joined = "" then "." else posixNormalize joined

/-- Drop the longest common leading run of two segment lists. -/
def dropCommonSegs : List String → List String → List String × List String
  | a :: as, b :: bs =>
    if a = b then dropCommonSegs as bs else (a :: as, b :: bs)
  | as, bs => (as, bs)

/-- Node path.relative for two absolute POSIX paths: resolve both, drop the
common leading segments, then climb with ".." and descend into the rest. -/
def posixRelative (f t : String) : String :=
  let (fRest, tRest) := dropCommonSegs (normSegsOf true f) (normSegsOf true t)
  strJoinSep '/' (fRest.map (fun _ => "..") ++ tRest)

/-- Node path.basename for POSIX paths. -/
def posixBasename (p : String) : String :=
  match ((strSplitOn p '/').filter (fun s => s ≠ "")).getLast? with
  | some s => s
  | none => if strStartsWith p "/" then "/" else p

/-- Node path.dirname for POSIX paths. -/
def posixDirname (p : String) : String :=
  let isAbs := strStartsWith p "/"
  let segs := (strSplitOn p '/').filter (fun s => s ≠ "")
  match segs.dropLast with
  | [] => if isAbs then "/" else "."
  | rest => (if isAbs then "/" else "") ++ strJoinSep '/' rest

/-! ### Glob matching (micromatch.isMatch with the dot:true option)

The source matches posix relative paths against the configured exclusion
patterns with micromatch.isMatch(relPosix, excludePatterns, dot:true).
Matching is segment-based: a single star matches within one path segment, a
double star segment matches any number of segments, a question mark matches
one character; with dot:true wildcards also match dotfiles (so the matcher
below needs no dotfile special case). micromatch throws on an empty pattern
string; that raising case is modelled by the GlobErr error. The matchers
carry an explicit fuel argument so that they are structurally recursive and
reduce inside the kernel; the wrapper supplies sufficient fuel. -/

/-- Match one glob segment (star and question mark wildcards) against one
path segment, with explicit fuel. -/
def segMatchFuel : Nat → List Char → List Char → Bool
  | 0, _, _ => false
  | _ + 1, [], [] => true
  | fuel + 1, '*' :: ps, cs =>
    segMatchFuel fuel ps cs ||
      (match cs with
       | [] => false
       | _ :: cs2 => segMatchFuel fuel ('*' :: ps) cs2)
  | fuel + 1, '?' :: ps, _ :: cs => segMatchFuel fuel ps cs
  | fuel + 1, p :: ps, c :: cs => p = c && segMatchFuel fuel ps cs
  | _ + 1, _ :: _, [] => false
  | _ + 1, [], _ :: _ => false

/-- Match a list of glob segments against a list of path segments: a double
star pattern segment matches any number of path segments. -/
def globSegsFuel : Nat → List (List Char) → List (List Char) → Bool
  | 0, _, _ => false
  | _ + 1, [], [] => true
  | fuel + 1, gs@(g :: gRest), ss =>
    if g = ['*', '*'] then
      globSegsFuel fuel gRest ss ||
        (match ss with
         | [] => false
         | _ :: sRest => globSegsFuel fuel gs sRest)
    else
      match ss with
      | [] => false
      | s :: sRest =>
        segMatchFuel (g.length + s.length + 1) g s && globSegsFuel fuel gRest sRest
  | _ + 1, [], _ :: _ => false

/-- Whether one well-formed glob pattern matches a posix relative path. -/
def globMatch (pat s : String) : Bool :=
  let gs := splitCharsAux '/' pat.data []
  let ss := splitCharsAux '/' s.data []
  globSegsFuel (gs.length + ss.length + 1) gs ss

/-- Error raised by the glob engine: micromatch throws on a malformed
(empty) pattern string. -/
inductive GlobErr where
  | malformedPattern
deriving DecidableEq

/-- Evaluate one exclusion pattern against a path: raises on the malformed
(empty) pattern, otherwise decides the match. -/
def isMatchPattern (s pat : String) : Except GlobErr Bool :=
  if pat = "" then .error .malformedPattern
  else .ok (globMatch pat s)

/-- Fold of micromatch.isMatch over the pattern list: every pattern is
compiled (so a malformed pattern raises even when another pattern already
matched) and the match results are combined with logical or. -/
def micromatchFold (s : String) : List String → Bool → Except GlobErr Bool
  | [], acc => .ok acc
  | pat :: rest, acc =>
    match isMatchPattern s pat with
    | .error e => .error e
    | .ok b => micromatchFold s rest (acc || b)

/-- micromatch.isMatch(s, patterns, dot:true). -/
def micromatchIsMatch (s : String) (patterns : List String) : Except GlobErr Bool :=
  micromatchFold s patterns false

/-! ### Filesystem model

The filesystem is a finite association list from (normalized posix) path
strings to nodes. A file node carries its byte content and its modification
time; mtimeMs in Node is a float of milliseconds with a sub-millisecond
fraction, modelled here as an integer count of microseconds, so that
Math.floor(mtimeMs) becomes integer division by 1000. The readOk flag is
false for a file whose content reads (hashing, copying) raise an I/O error;
the statError node is a path on which stat itself raises. -/

inductive FSNode where
  | file (content : List Nat) (mtimeUs : Nat) (readOk : Bool)
  | dir
  | statError
deriving DecidableEq

/-- A filesystem: association list from absolute path to node. -/
abbrev FS := List (String × FSNode)

/-- Look up the node stored at a path. -/
def lookupFS (fs : FS) (p : String) : Option FSNode :=
  (fs.find? (fun e => e.1 = p)).map (fun e => e.2)

/-- fs.existsSync: true when stat succeeds (false for a missing path and for
a path whose stat raises, since existsSync swallows errors). -/
def existsSync (fs : FS) (p : String) : Bool :=
  match lookupFS fs p with
  | some .statError => false
  | some _ => true
  | none => false

/-- Stat record as consumed by the source (isFile, isDirectory, size,
modification time). -/
structure StatInfo where
  isFile : Bool
  isDirectory : Bool
  size : Nat
  mtimeUs : Nat
deriving DecidableEq

/-- I/O error raised by stat, read or hash operations. -/
inductive IOErr where
  | ioFailure
deriving DecidableEq

/-- fs.statSync / fs.promises.stat: raises on a missing path or on a
statError node. -/
def statSyncE (fs : FS) (p : String) : Except IOErr StatInfo :=
  match lookupFS fs p with
  | some (.file c m _) => .ok ⟨true, false, c.length, m⟩
  | some .dir => .ok ⟨false, true, 0, 0⟩
  | some .statError => .error .ioFailure
  | none => .error .ioFailure

/-- Whether the node at a path is a directory (statSync(p).isDirectory()). -/
def isDirAt (fs : FS) (p : String) : Bool :=
  match lookupFS fs p with
  | some .dir => true
  | _ => false

/-- Whether the node at a path is a regular file (statSync(p).isFile()). -/
def isFileAt (fs : FS) (p : String) : Bool :=
  match lookupFS fs p with
  | some (.file _ _ _) => true
  | _ => false

/-! ### Sync tasks and settings (typed shape used by the engine) -/

/-- A configured synchronization task (type SyncTask in the source). -/
structure SyncTask where
  id : String
  name : String
  sourcePath : String
  targetPath : String
  enabled : Bool
deriving DecidableEq

/-- The two change-detection modes. In the engine the comparison reads
compareMode with one equality test against the string hash, so any value
other than hash behaves as mtime; the two-valued type reflects that. -/
inductive CompareMode where
  | mtime
  | hash
deriving DecidableEq

/-- The settings fields consumed by the synchronization engine
(type ExternalSyncSettings in the source, restricted to the engine-relevant
fields in their well-typed reading). -/
structure ExternalSyncSettings where
  tasks : List SyncTask
  excludePatterns : List String
  compareMode : CompareMode
deriving DecidableEq

/-! ### PathValidator (validateTask in the source) -/

/-- Result of task validation: either the resolved source and final target
absolute paths, or a failure reason (the reason strings are the literal
user-facing strings of the source). -/
inductive VResult where
  | ok (source target : String)
  | err (reason : String)
deriving DecidableEq

/-- validateTask: the literal validation chain of the source. Reason strings
are the Chinese user-facing messages of the source. The final statSync on the
source cannot raise because existsSync has just succeeded; the unreachable
fallback arm returns the source-missing failure. -/
def validateTask (task : SyncTask) (vaultBasePath : String) (fs : FS) : VResult :=
  if jsTrim task.sourcePath = "" then .err "源路径为空"
  else if jsTrim task.targetPath = "" then .err "目标路径为空"
  else
    let source := posixNormalize task.sourcePath
    if ¬ existsSync fs source then .err "源路径不存在"
    else if posixIsAbsolute task.targetPath then .err "目标路径必须是 Vault 内相对路径"
    else
      let targetBase := posixNormalize task.targetPath
      let targetAbs := posixJoin vaultBasePath targetBase
      let rel := posixRelative vaultBasePath targetAbs
      if strStartsWith rel ".." then .err "目标路径必须在 Vault 内"
      else
        match lookupFS fs source with
        | some (.file _ _ _) =>
          -- endsWith "/" and endsWith path.sep coincide on POSIX
          if strEndsWith task.targetPath "/"
              || (existsSync fs targetAbs && isDirAt fs targetAbs) then
            .ok source (posixJoin targetAbs (posixBasename source))
          else
            .ok source targetAbs
        | some .dir =>
          if existsSync fs targetAbs && isFileAt fs targetAbs then
            .err "源为目录时目标不能是文件"
          else
            .ok source targetAbs
        | _ => .err "源路径不存在"

/-! ### ChangeDetector and the copy filter (the filter closure passed to
fsExtra.copy in syncTaskInternal) -/

/-- hashFile: streams a file and produces its SHA-256 digest. Only digest
equality is observable, so the digest is modelled as the byte stream itself;
the read raises when the file is unreadable (readOk false), missing, or not
a regular file. -/
def hashFile (fs : FS) (p : String) : Except IOErr (List Nat) :=
  match lookupFS fs p with
  | some (.file c _ true) => .ok c
  | _ => .error .ioFailure

/-- The body of the try block inside the copy filter: stat the source entry,
descend unconditionally into directories, and for a regular file with an
existing regular destination file decide skip (ok false) or copy (ok true):
hash mode skips on equal digests, mtime mode skips when the sizes are equal
and the modification times truncated to whole milliseconds
(Math.floor(mtimeMs), here division of microseconds by 1000) are equal. Any
stat, read or hash failure propagates as an error (to be caught by the
enclosing catch). -/
def copyCompareBlock (mode : CompareMode) (fs : FS) (src dest : String) :
    Except IOErr Bool :=
  match statSyncE fs src with
  | .error e => .error e
  | .ok srcStat =>
    if srcStat.isDirectory then .ok true
    else if existsSync fs dest then
      match statSyncE fs dest with
      | .error e => .error e
      | .ok destStat =>
        if destStat.isFile then
          match mode with
          | .hash =>
            match hashFile fs src with
            | .error e => .error e
            | .ok srcHash =>
              match hashFile fs dest with
              | .error e => .error e
              | .ok destHash =>
                if srcHash = destHash then .ok false else .ok true
          | .mtime =>
            if destStat.size = srcStat.size
                && destStat.mtimeUs / 1000 = srcStat.mtimeUs / 1000 then
              .ok false
            else .ok true
        else .ok true
    else .ok true

/-- The console.warn message emitted when the comparison inside the filter
raises (the source interpolates the entry path). -/
def filterWarnMsg (src : String) : String :=
  "[External Sync Bridge] 过滤判断失败: " ++ src

/-- The filter closure passed to fsExtra.copy: compute the path of the entry
relative to the source root (the root entry itself is always included),
evaluate the exclusion patterns (micromatch may raise on a malformed pattern;
that exception is NOT caught here), then run the comparison inside a
try/catch whose catch logs a warning and falls through to include the entry.
Returns the include decision together with the warnings logged. -/
def copyFilter (patterns : List String) (mode : CompareMode) (sourceRoot : String)
    (fs : FS) (src dest : String) : Except GlobErr (Bool × List String) :=
  let rel := posixRelative sourceRoot src
  if rel = "" then .ok (true, [])
  else
    -- rel.split(path.sep).join("/"): the identity on POSIX, kept literally
    let relPosix := strJoinSep '/' (strSplitOn rel '/')
    let excluded : Except GlobErr Bool :=
      if patterns.length > 0 then micromatchIsMatch relPosix patterns else .ok false
    match excluded with
    | .error e => .error e
    | .ok true => .ok (false, [])
    | .ok false =>
      match copyCompareBlock mode fs src dest with
      | .ok d => .ok (d, [])
      | .error _ => .ok (true, [filterWarnMsg src])

/-! ### SyncEngine (syncTaskInternal and the recursive copy) -/

/-- Per-task outcome. -/
inductive Outcome where
  | ok
  | fail (reason : String)
deriving DecidableEq

/-- Whether an outcome is a success. -/
def Outcome.isOk : Outcome → Bool
  | .ok => true
  | .fail _ => false

/-- Errors that abort the recursive copy: a glob exception escaping the
filter, or an I/O failure of the underlying copy operation. -/
inductive CopyErr where
  | globErr
  | ioErr
deriving DecidableEq

/-- Write (create or overwrite) a node at a path. -/
def writeEntry (fs : FS) (p : String) (n : FSNode) : FS :=
  if (lookupFS fs p).isSome then
    fs.map (fun e => if e.1 = p then (p, n) else e)
  else
    fs ++ [(p, n)]

/-- All proper ancestor-to-self directory paths of an absolute path, shortest
first (the prefixes created by a recursive mkdir). -/
def pathPrefixes (p : String) : List String :=
  let segs := (strSplitOn p '/').filter (fun s => s ≠ "")
  (List.range segs.length).map (fun i => "/" ++ strJoinSep '/' (segs.take (i + 1)))

/-- fsExtra.ensureDir: create the directory and its missing ancestors
(safe when they already exist). -/
def ensureDir (fs : FS) (p : String) : FS :=
  (pathPrefixes p).foldl
    (fun acc q => if existsSync acc q then acc else acc ++ [(q, FSNode.dir)]) fs

/-- The path of an entry of the copied tree relative to the copy root
(none when the entry is not under the root). -/
def relOf (root p : String) : Option String :=
  if p = root then some ""
  else if strStartsWith p (root ++ "/") then some ⟨p.data.drop (root.data.length + 1)⟩
  else none

/-- The entries of the filesystem under a root, as (relative path, node)
pairs in filesystem order. -/
def descendants (fs : FS) (root : String) : List (String × FSNode) :=
  fs.filterMap (fun e => (relOf root e.1).map (fun r => (r, e.2)))

/-- Append a relative path under a root. -/
def joinRel (root rel : String) : String :=
  if rel = "" then root else root ++ "/" ++ rel

/-- Whether a relative path equals or lies beneath one of the pruned
(filtered-out) relative paths: fsExtra.copy never visits the children of an
entry its filter rejected. -/
def underPruned (pruned : List String) (rel : String) : Bool :=
  pruned.any (fun q => rel = q || strStartsWith rel (q ++ "/"))

/-- State threaded through the recursive copy: the filesystem, the warnings
logged so far, and the pruned subtree roots. -/
structure CopySt where
  fs : FS
  warns : List String
  pruned : List String

/-- Configuration of one recursive copy. -/
structure CopyCtx where
  patterns : List String
  mode : CompareMode
  sourceRoot : String
  targetRoot : String

/-- Process one entry of the walked tree: skip it when it lies beneath a
pruned entry, otherwise run the filter; a rejected entry is recorded as
pruned, an accepted directory is created at the destination, an accepted
file is copied with its timestamp preserved (overwriting any existing
destination entry); an unreadable accepted file makes the underlying copy
raise. A glob exception from the filter aborts the copy. -/
def copyEntry (ctx : CopyCtx) (st : CopySt) (rel : String) (node : FSNode) :
    CopySt × Option CopyErr :=
  if underPruned st.pruned rel then (st, none)
  else
    let src := joinRel ctx.sourceRoot rel
    let dest := joinRel ctx.targetRoot rel
    match copyFilter ctx.patterns ctx.mode ctx.sourceRoot st.fs src dest with
    | .error _ => (st, some .globErr)
    | .ok (false, ws) =>
      ({ st with warns := st.warns ++ ws, pruned := st.pruned ++ [rel] }, none)
    | .ok (true, ws) =>
      let st2 : CopySt := { st with warns := st.warns ++ ws }
      match node with
      | .dir => ({ st2 with fs := writeEntry st2.fs dest .dir }, none)
      | .file c m true =>
        ({ st2 with fs := writeEntry st2.fs dest (.file c m true) }, none)
      | .file _ _ false => (st2, some .ioErr)
      | .statError => (st2, some .ioErr)

/-- Walk a list of (relative path, node) entries, stopping at the first
error. -/
def copyWalk (ctx : CopyCtx) : List (String × FSNode) → CopySt → CopySt × Option CopyErr
  | [], st => (st, none)
  | (rel, n) :: rest, st =>
    match copyEntry ctx st rel n with
    | (st2, none) => copyWalk ctx rest st2
    | (st2, some e) => (st2, some e)

/-- fsExtra.copy(source, target, overwrite, preserveTimestamps, filter):
recursive tree copy of every entry under the source root. -/
def copyTree (ctx : CopyCtx) (fs : FS) : CopySt × Option CopyErr :=
  copyWalk ctx (descendants fs ctx.sourceRoot) ⟨fs, [], []⟩

/-- syncTaskInternal: validate the task; on validation failure return the
failure outcome without touching the filesystem. Otherwise ensure the parent
directory of the target exists and run the recursive filtered copy; any
exception escaping the copy is caught and reported as the generic failure
reason 同步失败. Returns the outcome, the resulting filesystem and the
warnings logged by the filter. -/
def syncTaskInternal (settings : ExternalSyncSettings) (task : SyncTask)
    (vaultBasePath : String) (fs : FS) : Outcome × FS × List String :=
  match validateTask task vaultBasePath fs with
  | .err reason => (.fail reason, fs, [])
  | .ok source target =>
    let fs1 := ensureDir fs (posixDirname target)
    let ctx : CopyCtx := ⟨settings.excludePatterns, settings.compareMode, source, target⟩
    match copyTree ctx fs1 with
    | (st, none) => (.ok, st.fs, st.warns)
    | (st, some _) => (.fail "同步失败", st.fs, st.warns)

/-! ### TaskRunner (syncAllTasks in the source) -/

/-- The display name used in failure messages: task.name together with the
JS or-else fallback to task.id when the name is the empty string. -/
def displayName (task : SyncTask) : String :=
  if task.name = "" then task.id else task.name

/-- The Notice messages shown by syncAllTasks, as a sum so the aggregate
counts stay inspectable (the source interpolates them into Chinese text). -/
inductive NoticeMsg where
  | noEnabledTasks
  | doneNotice (successCount failCount : Nat)
  | allFailedNotice (failCount : Nat)
deriving DecidableEq

/-- Aggregate report of one bulk run. -/
structure RunReport where
  successCount : Nat
  failCount : Nat
  failures : List String
  notice : NoticeMsg
deriving DecidableEq

/-- The sequential loop of syncAllTasks over the enabled tasks, threading
the filesystem: returns (successCount, failCount, failure messages, final
filesystem). -/
def runTasks (settings : ExternalSyncSettings) (vaultBasePath : String) :
    List SyncTask → FS → Nat × Nat × List String × FS
  | [], fs => (0, 0, [], fs)
  | t :: rest, fs =>
    let r := syncTaskInternal settings t vaultBasePath fs
    let tail := runTasks settings vaultBasePath rest r.2.1
    match r.1 with
    | .ok => (tail.1 + 1, tail.2.1, tail.2.2.1, tail.2.2.2)
    | .fail reason =>
      (tail.1, tail.2.1 + 1, (displayName t ++ ": " ++ reason) :: tail.2.2.1, tail.2.2.2)

/-- syncAllTasks: filter to the enabled tasks; when none is enabled show the
no-enabled-tasks notice and run nothing; otherwise run each enabled task in
order, count successes and failures, collect one message per failure, and
show the aggregate notice. (The desktop-only vault base path guard of the
source is outside the model: a vault base path is always supplied.) -/
def syncAllTasks (settings : ExternalSyncSettings) (vaultBasePath : String)
    (fs : FS) : RunReport × FS :=
  let enabledTasks := settings.tasks.filter (fun t => t.enabled)
  if enabledTasks.isEmpty then
    (⟨0, 0, [], .noEnabledTasks⟩, fs)
  else
    let r := runTasks settings vaultBasePath enabledTasks fs
    let notice := if r.1 > 0 then NoticeMsg.doneNotice r.1 r.2.1
                  else NoticeMsg.allFailedNotice r.2.1
    (⟨r.1, r.2.1, r.2.2.1, notice⟩, r.2.2.2)

/-- The outcome of each task of a list when run sequentially with the
filesystem threaded through, in submission order. -/
def taskOutcomes (settings : ExternalSyncSettings) (vaultBasePath : String) :
    List SyncTask → FS → List Outcome
  | [], _ => []
  | t :: rest, fs =>
    let r := syncTaskInternal settings t vaultBasePath fs
    r.1 :: taskOutcomes settings vaultBasePath rest r.2.1

/-- The expected failure message list of a sequential run: one entry per
failing task, in submission order. -/
def failureMessages (settings : ExternalSyncSettings) (vaultBasePath : String) :
    List SyncTask → FS → List String
  | [], _ => []
  | t :: rest, fs =>
    let r := syncTaskInternal settings t vaultBasePath fs
    match r.1 with
    | .ok => failureMessages settings vaultBasePath rest r.2.1
    | .fail reason =>
      (displayName t ++ ": " ++ reason) :: failureMessages settings vaultBasePath rest r.2.1

/-! ### Settings persistence (loadSettings / normalizeSettings)

The persisted settings are arbitrary JSON; each field of the runtime settings
object can therefore hold an ill-typed value. A field is modelled by what the
source inspects about it: Array.isArray for the two array fields, strict
string equality for the enumerated fields, typeof string for dailyTime,
Number.isFinite for intervalMinutes, and JS truthiness (captured as the Bool
the Boolean coercion yields) for the two flag fields. -/

/-- A JSON field expected to be an array of α: an actual array, or any
non-array value. -/
inductive ArrField (α : Type) where
  | arr (xs : List α)
  | notArr
deriving DecidableEq

/-- A JSON field expected to be a number: a finite number (the source only
ever compares and defaults it, modelled as an integer), or NaN, an infinity
or a non-number (Number.isFinite false). -/
inductive NumField where
  | finiteNum (v : Int)
  | notFinite
deriving DecidableEq

/-- A JSON field expected to be a string: a string, or a non-string value. -/
inductive StrField where
  | strVal (s : String)
  | notStr
deriving DecidableEq

/-- The runtime settings object as it exists between load and normalization
(the TS type ExternalSyncSettings, whose fields can in fact hold unvalidated
persisted values). -/
structure RawSettingsState where
  tasks : ArrField SyncTask
  autoSyncOnLoad : Bool
  excludePatterns : ArrField String
  compareMode : StrField
  scheduleEnabled : Bool
  scheduleMode : StrField
  intervalMinutes : NumField
  dailyTime : StrField
deriving DecidableEq

/-- DEFAULT_SETTINGS of the source. -/
def DEFAULT_SETTINGS : RawSettingsState :=
  ⟨.arr [], false, .arr ["**/node_modules/**", "**/.DS_Store"], .strVal "mtime",
   false, .strVal "interval", .finiteNum 60, .strVal "09:00"⟩

/-- The object returned by loadData: persisted JSON in which every field may
be absent. -/
structure StoredData where
  tasks : Option (ArrField SyncTask)
  autoSyncOnLoad : Option Bool
  excludePatterns : Option (ArrField String)
  compareMode : Option StrField
  scheduleEnabled : Option Bool
  scheduleMode : Option StrField
  intervalMinutes : Option NumField
  dailyTime : Option StrField
deriving DecidableEq

/-- loadSettings: Object.assign over DEFAULT_SETTINGS — a shallow field-wise
merge in which every present persisted field overrides the default, with no
further validation. -/
def loadSettings (d : StoredData) : RawSettingsState :=
  ⟨d.tasks.getD DEFAULT_SETTINGS.tasks,
   d.autoSyncOnLoad.getD DEFAULT_SETTINGS.autoSyncOnLoad,
   d.excludePatterns.getD DEFAULT_SETTINGS.excludePatterns,
   d.compareMode.getD DEFAULT_SETTINGS.compareMode,
   d.scheduleEnabled.getD DEFAULT_SETTINGS.scheduleEnabled,
   d.scheduleMode.getD DEFAULT_SETTINGS.scheduleMode,
   d.intervalMinutes.getD DEFAULT_SETTINGS.intervalMinutes,
   d.dailyTime.getD DEFAULT_SETTINGS.dailyTime⟩

/-- normalizeSettings: the field-wise normalization run by importSettings
(and only there): array fields defaulted to empty arrays, compareMode forced
to hash or mtime by one string comparison, scheduleMode forced to daily or
interval likewise, the flag fields coerced with Boolean, intervalMinutes
defaulted to 60 unless finite, dailyTime defaulted unless a string. -/
def normalizeSettings (s : RawSettingsState) : RawSettingsState :=
  ⟨(match s.tasks with | .arr ts => .arr ts | .notArr => .arr []),
   s.autoSyncOnLoad,
   (match s.excludePatterns with | .arr ps => .arr ps | .notArr => .arr []),
   (if s.compareMode = .strVal "hash" then .strVal "hash" else .strVal "mtime"),
   s.scheduleEnabled,
   (if s.scheduleMode = .strVal "daily" then .strVal "daily" else .strVal "interval"),
   (match s.intervalMinutes with | .finiteNum v => .finiteNum v | .notFinite => .finiteNum 60),
   (match s.dailyTime with | .strVal t => .strVal t | .notStr => .strVal "09:00")⟩

/-! ### Scheduler (clearSchedule / setupSchedule / onunload)

The browser timer pool is modelled as the list of live timer identifiers
plus an allocation counter. window.setInterval and window.setTimeout return
a fresh identifier and add it to the live pool; clearing removes an
identifier from the pool and is a no-op when it is not live; the fire of a
one-shot timeout removes it from the pool. -/

/-- The two timer handle fields of the plugin. -/
structure SchedState where
  scheduleIntervalId : Option Nat
  scheduleTimeoutId : Option Nat
deriving DecidableEq

/-- The timer pool of the host environment. -/
structure TimerWorld where
  live : List Nat
  nextId : Nat
deriving DecidableEq

/-- Plugin timer state plus timer pool. -/
abbrev SchedSys := SchedState × TimerWorld

/-- window.clearInterval / window.clearTimeout: remove a timer from the live
pool (safe when it is not live). -/
def clearTimer (w : TimerWorld) (i : Nat) : TimerWorld :=
  ⟨w.live.filter (fun j => j ≠ i), w.nextId⟩

/-- window.setInterval / window.setTimeout: allocate a fresh live timer. -/
def allocTimer (w : TimerWorld) : Nat × TimerWorld :=
  (w.nextId, ⟨w.live ++ [w.nextId], w.nextId + 1⟩)

/-- clearSchedule: clear and null the interval handle when set, then clear
and null the timeout handle when set. -/
def clearSchedule (s : SchedSys) : SchedSys :=
  let w1 := match s.1.scheduleIntervalId with
    | some i => clearTimer s.2 i
    | none => s.2
  let w2 := match s.1.scheduleTimeoutId with
    | some t => clearTimer w1 t
    | none => w1
  (⟨none, none⟩, w2)

/-- The schedule-relevant settings fields read by setupSchedule. The mode is
compared against the string interval with one strict equality, so any other
value (including junk) takes the daily branch; the timer durations
(interval minutes, daily delay) do not affect the timer-count invariant and
are not tracked in the pool. -/
structure SchedConfig where
  scheduleEnabled : Bool
  scheduleMode : StrField
deriving DecidableEq

/-- setupSchedule: always tear down first; when scheduling is enabled, arm
a recurring interval timer in interval mode, otherwise arm the one-shot
daily timeout. -/
def setupSchedule (cfg : SchedConfig) (s : SchedSys) : SchedSys :=
  let s1 := clearSchedule s
  if ¬ cfg.scheduleEnabled then s1
  else if cfg.scheduleMode = .strVal "interval" then
    let a := allocTimer s1.2
    (⟨some a.1, s1.1.scheduleTimeoutId⟩, a.2)
  else
    let a := allocTimer s1.2
    (⟨s1.1.scheduleIntervalId, some a.1⟩, a.2)

/-- The fire of the armed daily timeout t: the one-shot leaves the live pool,
the handler runs syncAllTasks and arms the recurring 24-hour interval (the
timeout handle field is left pointing at the dead timeout, as in the
source). -/
def dailyFire (s : SchedSys) (t : Nat) : SchedSys :=
  let w1 := clearTimer s.2 t
  let a := allocTimer w1
  (⟨some a.1, s.1.scheduleTimeoutId⟩, a.2)

/-- The transitions of the scheduler component: a configuration change (any
combination of enabled flag, mode, interval value or daily time, since
saveSettings always re-runs setupSchedule), the periodic fire of a live
interval timer (which changes no timer state), the fire of the armed daily
timeout, and process shutdown (onunload, which runs clearSchedule). -/
inductive SchedStep : SchedSys → SchedSys → Prop
  | reconfigure (cfg : SchedConfig) (s : SchedSys) : SchedStep s (setupSchedule cfg s)
  | intervalFire (s : SchedSys) (i : Nat) :
      s.1.scheduleIntervalId = some i → i ∈ s.2.live → SchedStep s s
  | dailyTimeoutFire (s : SchedSys) (t : Nat) :
      s.1.scheduleTimeoutId = some t → t ∈ s.2.live → SchedStep s (dailyFire s t)
  | unload (s : SchedSys) : SchedStep s (clearSchedule s)

/-- The scheduler invariant: at most one live timer, and a live timer is
always recorded in one of the two handle fields (so that clearSchedule can
always reach it). -/
def schedInv (s : SchedSys) : Bool :=
  match s.2.live with
  | [] => true
  | [i] => s.1.scheduleIntervalId = some i || s.1.scheduleTimeoutId = some i
  | _ => false

/-! ## Claim theorems -/

/-- C1: for every task that fails validation (in particular a missing source
path, or a target resolving outside the destination root), syncTaskInternal
returns the validation failure outcome and performs no filesystem write: the
filesystem is returned unchanged (no directory created, no file written), and
no warnings are logged. -/
theorem C1_validation_failure_performs_no_write
    (settings : ExternalSyncSettings) (task : SyncTask) (vaultBasePath : String)
    (fs : FS) (reason : String)
    (h : validateTask task vaultBasePath fs = .err reason) :
    syncTaskInternal settings task vaultBasePath fs = (.fail reason, fs, []) := by
  unfold syncTaskInternal
  rw [h]

/-- Witness for C1: a task whose target resolves outside the vault (target
../outside) fails validation and leaves the filesystem untouched; likewise a
task whose source path does not exist. -/
theorem C1_witness :
    syncTaskInternal ⟨[], [], .mtime⟩ ⟨"t1", "n", "/ext/config.json", "../outside", true⟩
      "/vault" [("/vault", .dir), ("/ext/config.json", .file [1] 0 true)] =
      (.fail "目标路径必须在 Vault 内",
       [("/vault", .dir), ("/ext/config.json", .file [1] 0 true)], [])
    ∧ syncTaskInternal ⟨[], [], .mtime⟩ ⟨"t2", "n", "/missing.txt", "Backups", true⟩
      "/vault" [("/vault", .dir)] =
      (.fail "源路径不存在", [("/vault", .dir)], []) :=
  ⟨C1_validation_failure_performs_no_write _ _ _ _ _ rfl,
   C1_validation_failure_performs_no_write _ _ _ _ _ rfl⟩

/-- C4: under comparison mode mtime, for a regular source file: when no
destination entry exists the comparison decides copy; when the destination
is a regular file the copy is skipped exactly when the destination size
equals the source size and the modification times truncated to whole
milliseconds are equal, and in every other case the file is copied. -/
theorem C4_mtime_change_detection
    (fs : FS) (src dest : String) (sc : List Nat) (sm : Nat) (srk : Bool)
    (hsrc : lookupFS fs src = some (.file sc sm srk)) :
    (lookupFS fs dest = none → copyCompareBlock .mtime fs src dest = .ok true)
    ∧ (∀ dc dm drk, lookupFS fs dest = some (.file dc dm drk) →
        copyCompareBlock .mtime fs src dest =
          if dc.length = sc.length ∧ dm / 1000 = sm / 1000 then .ok false
          else .ok true) := by
  constructor
  · intro hd
    simp [copyCompareBlock, statSyncE, existsSync, hsrc, hd]
  · intro dc dm drk hd
    by_cases h1 : dc.length = sc.length <;> by_cases h2 : dm / 1000 = sm / 1000 <;>
      simp [copyCompareBlock, statSyncE, existsSync, hsrc, hd, h1, h2]

/-- Witness for C4: with no destination entry the file is copied; with a
destination file of equal size and an mtime equal after truncation to whole
milliseconds (1999us and 1200us both truncate to 1ms) the copy is skipped. -/
theorem C4_witness :
    copyCompareBlock .mtime [("/s", .file [9] 1200 true)] "/s" "/d" = .ok true
    ∧ copyCompareBlock .mtime
        [("/s", .file [9] 1200 true), ("/d", .file [7] 1999 true)] "/s" "/d" = .ok false := by
  constructor
  · exact (C4_mtime_change_detection [("/s", .file [9] 1200 true)]
      "/s" "/d" [9] 1200 true rfl).1 rfl
  · have h := (C4_mtime_change_detection
      [("/s", .file [9] 1200 true), ("/d", .file [7] 1999 true)]
      "/s" "/d" [9] 1200 true rfl).2 [7] 1999 true rfl
    simpa using h

/-- Counterexample for C5: two files with identical byte content and
DIFFERING modification timestamps (1200us versus 1700us) on which the two
comparison modes do NOT diverge: both classify the pair unchanged, because
the mtime comparison truncates to whole milliseconds (Math.floor of mtimeMs)
and both timestamps truncate to 1ms. The claim as stated (mtime mode copies
whenever the timestamps differ) is therefore false at this input. -/
theorem C5_counterexample :
    (1200 : Nat) ≠ 1700
    ∧ copyCompareBlock .hash
        [("/s", .file [9] 1200 true), ("/d", .file [9] 1700 true)] "/s" "/d" = .ok false
    ∧ copyCompareBlock .mtime
        [("/s", .file [9] 1200 true), ("/d", .file [9] 1700 true)] "/s" "/d" = .ok false
    ∧ copyCompareBlock .mtime
        [("/s", .file [9] 1200 true), ("/d", .file [9] 1700 true)] "/s" "/d" ≠ .ok true := by
  refine ⟨by decide, rfl, rfl, fun h => ?_⟩
  have h2 : (Except.ok false : Except IOErr Bool) = Except.ok true :=
    (rfl : copyCompareBlock .mtime
      [("/s", .file [9] 1200 true), ("/d", .file [9] 1700 true)] "/s" "/d" =
      Except.ok false).symm.trans h
  simp at h2

/-- C5 (amended): for every file pair with identical byte content (hence
equal sizes) whose modification times differ at whole-millisecond
granularity (differing Math.floor of mtimeMs), the change detector
classifies the pair unchanged (skip) under mode hash and changed (copy)
under mode mtime: the two modes diverge exactly on such pairs. -/
theorem C5_hash_vs_mtime_divergence
    (fs : FS) (src dest : String) (c : List Nat) (sm dm : Nat)
    (hsrc : lookupFS fs src = some (.file c sm true))
    (hdst : lookupFS fs dest = some (.file c dm true))
    (hms : dm / 1000 ≠ sm / 1000) :
    copyCompareBlock .hash fs src dest = .ok false
    ∧ copyCompareBlock .mtime fs src dest = .ok true := by
  constructor
  · simp [copyCompareBlock, statSyncE, existsSync, hashFile, hsrc, hdst]
  · simp [copyCompareBlock, statSyncE, existsSync, hsrc, hdst, hms]

/-- Witness for C5 (amended): same content, mtimes 1000us and 2500us
(truncations 1ms and 2ms differ): hash mode skips, mtime mode copies. -/
theorem C5_witness :
    copyCompareBlock .hash
      [("/s", .file [9] 1000 true), ("/d", .file [9] 2500 true)] "/s" "/d" = .ok false
    ∧ copyCompareBlock .mtime
      [("/s", .file [9] 1000 true), ("/d", .file [9] 2500 true)] "/s" "/d" = .ok true :=
  C5_hash_vs_mtime_divergence _ "/s" "/d" [9] 1000 2500 rfl rfl (by decide)

/-- C6: for every entry whose comparison raises an I/O error (stat, read or
hash failure on either side), the copy filter falls back to needs-copy: it
returns the include decision true together, logs the warning for that entry,
and does not abort (the filter returns normally rather than raising). -/
theorem C6_compare_error_falls_back_to_copy
    (patterns : List String) (mode : CompareMode) (sourceRoot : String)
    (fs : FS) (src dest : String) (e : IOErr)
    (hrel : posixRelative sourceRoot src ≠ "")
    (hglob : micromatchIsMatch
      (strJoinSep '/' (strSplitOn (posixRelative sourceRoot src) '/')) patterns = .ok false)
    (herr : copyCompareBlock mode fs src dest = .error e) :
    copyFilter patterns mode sourceRoot fs src dest = .ok (true, [filterWarnMsg src]) := by
  unfold copyFilter
  rw [if_neg hrel]
  cases patterns with
  | nil => simp [herr]
  | cons p ps => simp [hglob, herr]

/-- Witness for C6: an entry whose stat raises (statError node) under a
non-matching pattern set: the filter includes the entry and logs the
warning. -/
theorem C6_witness :
    copyFilter ["**/.DS_Store"] .mtime "/ext" [("/ext/broken", .statError)]
      "/ext/broken" "/v/broken" = .ok (true, [filterWarnMsg "/ext/broken"]) :=
  C6_compare_error_falls_back_to_copy ["**/.DS_Store"] .mtime "/ext"
    [("/ext/broken", .statError)] "/ext/broken" "/v/broken" .ioFailure
    (by decide) rfl rfl

/-- C8: for every task whose source is a regular file and which passes
validation: when the raw target path string ends with the path separator, or
a directory already exists at the resolved target, the final destination is
resolvedTarget joined with the source base name (copy-into-directory);
otherwise the final destination is the resolved target itself
(copy-as-named-file). -/
theorem C8_file_target_resolution
    (task : SyncTask) (vaultBasePath : String) (fs : FS)
    (c : List Nat) (m : Nat) (rk : Bool)
    (h1 : jsTrim task.sourcePath ≠ "")
    (h2 : jsTrim task.targetPath ≠ "")
    (hsrc : lookupFS fs (posixNormalize task.sourcePath) = some (.file c m rk))
    (h3 : posixIsAbsolute task.targetPath = false)
    (h4 : strStartsWith (posixRelative vaultBasePath
        (posixJoin vaultBasePath (posixNormalize task.targetPath))) ".." = false) :
    validateTask task vaultBasePath fs =
      (let source := posixNormalize task.sourcePath
       let targetAbs := posixJoin vaultBasePath (posixNormalize task.targetPath)
       if strEndsWith task.targetPath "/" || (existsSync fs targetAbs && isDirAt fs targetAbs)
       then .ok source (posixJoin targetAbs (posixBasename source))
       else .ok source targetAbs) := by
  have hex : existsSync fs (posixNormalize task.sourcePath) = true := by
    unfold existsSync
    rw [hsrc]
  simp [validateTask, h1, h2, hex, h3, h4, hsrc]

/-- Witness for C8: source file /ext/config.json with target Backups/
(trailing separator) resolves to the final destination
/vault/Backups/config.json under vault root /vault. -/
theorem C8_witness :
    validateTask ⟨"t1", "n", "/ext/config.json", "Backups/", true⟩ "/vault"
      [("/vault", .dir), ("/ext/config.json", .file [1, 2] 0 true)] =
      .ok "/ext/config.json" "/vault/Backups/config.json" := by
  have h := C8_file_target_resolution
    ⟨"t1", "n", "/ext/config.json", "Backups/", true⟩ "/vault"
    [("/vault", .dir), ("/ext/config.json", .file [1, 2] 0 true)]
    [1, 2] 0 true (by decide) (by decide) rfl (by decide) (by decide)
  simpa using h

/-- C10: containment is decided lexically: whenever the vault-relative
normalized form of the target begins with the two characters .., validation
fails with the stay-inside-the-vault reason, regardless of where the
resolved path actually lies. -/
theorem C10_lexical_containment_rejection
    (task : SyncTask) (vaultBasePath : String) (fs : FS)
    (h1 : jsTrim task.sourcePath ≠ "")
    (h2 : jsTrim task.targetPath ≠ "")
    (hex : existsSync fs (posixNormalize task.sourcePath) = true)
    (h3 : posixIsAbsolute task.targetPath = false)
    (h4 : strStartsWith (posixRelative vaultBasePath
        (posixJoin vaultBasePath (posixNormalize task.targetPath))) ".." = true) :
    validateTask task vaultBasePath fs = .err "目标路径必须在 Vault 内" := by
  simp [validateTask, h1, h2, hex, h3, h4]

/-- Witness for C10: the relative target ..backup names a top-level vault
folder whose resolved absolute path /vault/..backup lies lexically inside
the vault root, yet validation rejects it with the stay-inside-the-vault
reason because the vault-relative form starts with the two characters
point point. -/
theorem C10_witness :
    validateTask ⟨"t1", "n", "/ext/config.json", "..backup", true⟩ "/vault"
      [("/vault", .dir), ("/ext/config.json", .file [1] 0 true)] =
      .err "目标路径必须在 Vault 内"
    ∧ strStartsWith
        (posixJoin "/vault" (posixNormalize "..backup")) "/vault/" = true :=
  ⟨C10_lexical_containment_rejection
      ⟨"t1", "n", "/ext/config.json", "..backup", true⟩ "/vault"
      [("/vault", .dir), ("/ext/config.json", .file [1] 0 true)]
      (by decide) (by decide) rfl (by decide) (by decide),
   by decide⟩

/-- Counterexample for C3: a persisted settings object storing the finite
number 0 for intervalMinutes and the string garbage for compareMode. After
the load-time merge the engine-visible compareMode is still garbage (the
load path runs no normalization at all), and even after normalizeSettings
the intervalMinutes field is 0, which violates the claimed invariant
intervalMinutes at least 1. -/
theorem C3_counterexample :
    (loadSettings ⟨none, none, none, some (.strVal "garbage"), none, none,
        some (.finiteNum 0), none⟩).compareMode = .strVal "garbage"
    ∧ (normalizeSettings (loadSettings ⟨none, none, none, some (.strVal "garbage"),
        none, none, some (.finiteNum 0), none⟩)).intervalMinutes = .finiteNum 0
    ∧ ¬ ((1 : Int) ≤ 0) :=
  ⟨rfl, rfl, by decide⟩

/-- C3 (amended): normalizeSettings (run by importSettings, not by the load
path, which performs only the shallow merge over defaults) restores the
structural invariant: the task and exclusion-pattern fields are arrays
(defaulted to empty), compareMode is one of mtime and hash, scheduleMode is
one of interval and daily, the flag fields are coerced booleans (by the
model of truthiness), intervalMinutes is a finite number (defaulted to 60)
and dailyTime is a string - however intervalMinutes is not forced to be at
least 1 (that clamping happens only inside setupSchedule) and dailyTime is
not validated against the HH:MM shape. -/
theorem C3_normalized_settings_shape (d : StoredData) :
    (∃ ts, (normalizeSettings (loadSettings d)).tasks = .arr ts)
    ∧ (∃ ps, (normalizeSettings (loadSettings d)).excludePatterns = .arr ps)
    ∧ ((normalizeSettings (loadSettings d)).compareMode = .strVal "mtime"
        ∨ (normalizeSettings (loadSettings d)).compareMode = .strVal "hash")
    ∧ ((normalizeSettings (loadSettings d)).scheduleMode = .strVal "interval"
        ∨ (normalizeSettings (loadSettings d)).scheduleMode = .strVal "daily")
    ∧ (∃ v, (normalizeSettings (loadSettings d)).intervalMinutes = .finiteNum v)
    ∧ (∃ t, (normalizeSettings (loadSettings d)).dailyTime = .strVal t) := by
  refine ⟨?_, ?_, ?_, ?_, ?_, ?_⟩
  · cases h : (loadSettings d).tasks <;> simp [normalizeSettings, h]
  · cases h : (loadSettings d).excludePatterns <;> simp [normalizeSettings, h]
  · by_cases h : (loadSettings d).compareMode = .strVal "hash" <;>
      simp [normalizeSettings, h]
  · by_cases h : (loadSettings d).scheduleMode = .strVal "daily" <;>
      simp [normalizeSettings, h]
  · cases h : (loadSettings d).intervalMinutes <;> simp [normalizeSettings, h]
  · cases h : (loadSettings d).dailyTime <;> simp [normalizeSettings, h]

/-- clearSchedule always nulls both timer handle fields. -/
theorem clearSchedule_handles (s : SchedSys) : (clearSchedule s).1 = ⟨none, none⟩ := rfl

/-- Under the scheduler invariant, clearSchedule empties the live timer
pool: every live timer is recorded in a handle field and is cleared. -/
theorem clearSchedule_live_nil (s : SchedSys) (h : schedInv s = true) :
    (clearSchedule s).2.live = [] := by
  rcases s with ⟨⟨ii, ti⟩, ⟨live, n⟩⟩
  cases live with
  | nil => cases ii <;> cases ti <;> simp [clearSchedule, clearTimer]
  | cons i rest =>
    cases rest with
    | cons _ _ => simp [schedInv] at h
    | nil =>
      simp only [schedInv, Bool.or_eq_true, decide_eq_true_eq] at h
      rcases h with h | h
      · cases ti <;> simp [clearSchedule, clearTimer, h]
      · cases ii with
        | none => simp [clearSchedule, clearTimer, h]
        | some j =>
          by_cases hj : i = j <;> simp [clearSchedule, clearTimer, h, hj]

/-- C9: the primary scheduler invariant. Along every transition of the
scheduler (reconfiguration through setupSchedule, fire of a live interval
timer, fire of the armed daily timeout, and shutdown through onunload) at
most one timer is live at any moment; reconfiguration first tears down any
existing timer; under the invariant teardown empties the timer pool
(shutdown unconditionally clears any armed timer); and teardown is
idempotent and safe to call when no timer is armed. -/
theorem C9_at_most_one_live_timer :
    (∀ s s2 : SchedSys, schedInv s = true → SchedStep s s2 → schedInv s2 = true)
    ∧ (∀ s : SchedSys, schedInv s = true → s.2.live.length ≤ 1)
    ∧ (∀ s : SchedSys, schedInv s = true → (clearSchedule s).2.live = [])
    ∧ (∀ s : SchedSys, clearSchedule (clearSchedule s) = clearSchedule s)
    ∧ (∀ w : TimerWorld, clearSchedule (⟨none, none⟩, w) = (⟨none, none⟩, w)) := by
  refine ⟨?_, ?_, clearSchedule_live_nil, ?_, ?_⟩
  · intro s s2 h hs
    cases hs with
    | reconfigure cfg s =>
      have hnil : (clearSchedule s).2.live = [] := clearSchedule_live_nil s h
      have hst : (clearSchedule s).1 = ⟨none, none⟩ := rfl
      by_cases he : cfg.scheduleEnabled <;>
        by_cases hm : cfg.scheduleMode = .strVal "interval" <;>
          simp [setupSchedule, schedInv, allocTimer, he, hm, hnil, hst]
    | intervalFire s i hi hmem => exact h
    | dailyTimeoutFire s t ht hmem =>
      rcases s with ⟨st, ⟨live, n⟩⟩
      cases live with
      | nil => simp at hmem
      | cons x rest =>
        cases rest with
        | cons _ _ => simp [schedInv] at h
        | nil =>
          have hx : t = x := by simpa using hmem
          subst hx
          simp [dailyFire, clearTimer, allocTimer, schedInv]
    | unload s =>
      have hnil : (clearSchedule s).2.live = [] := clearSchedule_live_nil s h
      simp [schedInv, hnil]
  · intro s h
    rcases s with ⟨st, ⟨live, n⟩⟩
    cases live with
    | nil => simp
    | cons i rest =>
      cases rest with
      | cons _ _ => simp [schedInv] at h
      | nil => simp
  · intro s
    rfl
  · intro w
    rfl

/-- Witness for C9: from the idle state, enabling interval scheduling arms
exactly one timer and preserves the invariant; tearing down a state holding
one armed interval timer empties the timer pool. -/
theorem C9_witness :
    schedInv (setupSchedule ⟨true, .strVal "interval"⟩ (⟨none, none⟩, ⟨[], 0⟩)) = true
    ∧ (clearSchedule (⟨some 0, none⟩, ⟨[0], 1⟩)).2.live = [] :=
  ⟨C9_at_most_one_live_timer.1 (⟨none, none⟩, ⟨[], 0⟩) _ rfl
      (SchedStep.reconfigure ⟨true, .strVal "interval"⟩ (⟨none, none⟩, ⟨[], 0⟩)),
   C9_at_most_one_live_timer.2.2.1 (⟨some 0, none⟩, ⟨[0], 1⟩) rfl⟩

/-- When the pattern list contains the malformed (empty) pattern, the
micromatch fold raises, whatever the accumulated match result. -/
theorem micromatchFold_mem_empty_err (s : String) :
    ∀ (pats : List String) (acc : Bool), "" ∈ pats →
      micromatchFold s pats acc = .error .malformedPattern := by
  intro pats
  induction pats with
  | nil => intro acc h; simp at h
  | cons p rest ih =>
    intro acc h
    by_cases hp : p = ""
    · subst hp
      simp [micromatchFold, isMatchPattern]
    · have hr : "" ∈ rest := by
        rcases List.mem_cons.mp h with h1 | h1
        · exact absurd h1.symm hp
        · exact h1
      simp [micromatchFold, isMatchPattern, hp, ih _ hr]

/-- Counterexample for C2: a pattern set holding one malformed (empty)
pattern, on which micromatch raises. Evaluating the directory task aborts:
the task is reported failed with the generic reason 同步失败 instead of
completing with the malformed pattern treated as matching nothing. -/
theorem C2_counterexample :
    (syncTaskInternal ⟨[], [""], .mtime⟩ ⟨"t1", "n", "/ext", "Backups", true⟩ "/vault"
      [("/vault", .dir), ("/ext", .dir), ("/ext/a.txt", .file [1] 0 true)]).1 =
      .fail "同步失败"
    ∧ (syncTaskInternal ⟨[], [""], .mtime⟩ ⟨"t1", "n", "/ext", "Backups", true⟩ "/vault"
      [("/vault", .dir), ("/ext", .dir), ("/ext/a.txt", .file [1] 0 true)]).1 ≠ .ok :=
  ⟨rfl, by decide⟩

/-- C2 (amended): a malformed (empty) glob pattern makes the pattern engine
raise; the exception is NOT handled inside the filter (only the comparison
is wrapped in the try/catch), so evaluating any non-root entry against a
pattern set containing a malformed pattern makes the filter raise, and the
task-level catch converts the aborted copy into the per-task failure outcome
with the generic reason 同步失败 (so the process does not crash, but the
task fails rather than completing, and no malformed-pattern warning is
logged). -/
theorem C2_malformed_pattern_fails_task :
    (∀ s : String, isMatchPattern s "" = .error .malformedPattern)
    ∧ (∀ (patterns : List String) (mode : CompareMode) (sourceRoot : String)
        (fs : FS) (src dest : String),
        posixRelative sourceRoot src ≠ "" → "" ∈ patterns →
        copyFilter patterns mode sourceRoot fs src dest = .error .malformedPattern)
    ∧ (∀ (settings : ExternalSyncSettings) (task : SyncTask) (vaultBasePath : String)
        (fs : FS) (source target : String) (st : CopySt) (e : CopyErr),
        validateTask task vaultBasePath fs = .ok source target →
        copyTree ⟨settings.excludePatterns, settings.compareMode, source, target⟩
          (ensureDir fs (posixDirname target)) = (st, some e) →
        syncTaskInternal settings task vaultBasePath fs =
          (.fail "同步失败", st.fs, st.warns)) := by
  refine ⟨fun s => rfl, ?_, ?_⟩
  · intro patterns mode sourceRoot fs src dest hrel hmem
    have hlen : 0 < patterns.length := List.length_pos.mpr (List.ne_nil_of_mem hmem)
    have herr := micromatchFold_mem_empty_err
      (strJoinSep '/' (strSplitOn (posixRelative sourceRoot src) '/')) patterns false hmem
    unfold copyFilter
    rw [if_neg hrel]
    simp [micromatchIsMatch, hlen, herr]
  · intro settings task vb fs source target st e hv hc
    simp only [syncTaskInternal, hv, hc]

/-- Witness for C2 (amended): the empty pattern raises; a filter evaluation
over a pattern set containing it raises; the enclosing directory task is
reported failed with the generic reason, with the directory entry already
created and no warnings logged. -/
theorem C2_witness :
    isMatchPattern "a.txt" "" = .error .malformedPattern
    ∧ copyFilter [""] .mtime "/ext" [("/ext/b.txt", .file [2] 0 true)]
        "/ext/b.txt" "/vault/B/b.txt" = .error .malformedPattern
    ∧ syncTaskInternal ⟨[], [""], .mtime⟩ ⟨"t9", "n", "/ext2", "B2", true⟩ "/vault"
        [("/vault", .dir), ("/ext2", .dir), ("/ext2/b.txt", .file [2] 0 true)] =
        (.fail "同步失败",
         [("/vault", .dir), ("/ext2", .dir), ("/ext2/b.txt", .file [2] 0 true),
          ("/vault/B2", .dir)], []) := by
  refine ⟨C2_malformed_pattern_fails_task.1 "a.txt",
    C2_malformed_pattern_fails_task.2.1 [""] .mtime "/ext"
      [("/ext/b.txt", .file [2] 0 true)] "/ext/b.txt" "/vault/B/b.txt"
      (by decide) (by simp), ?_⟩
  have h := C2_malformed_pattern_fails_task.2.2 ⟨[], [""], .mtime⟩
    ⟨"t9", "n", "/ext2", "B2", true⟩ "/vault"
    [("/vault", .dir), ("/ext2", .dir), ("/ext2/b.txt", .file [2] 0 true)]
    "/ext2" "/vault/B2"
    ⟨[("/vault", .dir), ("/ext2", .dir), ("/ext2/b.txt", .file [2] 0 true),
      ("/vault/B2", .dir)], [], []⟩ .globErr rfl rfl
  exact h

/-- The success and failure counters and the failure message list computed
by the sequential task loop agree with the per-task outcome list. -/
theorem runTasks_eq_spec (settings : ExternalSyncSettings) (vb : String) :
    ∀ (ts : List SyncTask) (fs : FS),
      (runTasks settings vb ts fs).1 =
        ((taskOutcomes settings vb ts fs).filter Outcome.isOk).length
      ∧ (runTasks settings vb ts fs).2.1 =
        ((taskOutcomes settings vb ts fs).filter (fun o => !o.isOk)).length
      ∧ (runTasks settings vb ts fs).2.2.1 = failureMessages settings vb ts fs := by
  intro ts
  induction ts with
  | nil => intro fs; exact ⟨rfl, rfl, rfl⟩
  | cons t rest ih =>
    intro fs
    have h := ih (syncTaskInternal settings t vb fs).2.1
    cases ho : (syncTaskInternal settings t vb fs).1 with
    | ok =>
      refine ⟨?_, ?_, ?_⟩ <;>
        simp [runTasks, taskOutcomes, failureMessages, ho, Outcome.isOk,
          h.1, h.2.1, h.2.2, List.filter]
    | fail r =>
      refine ⟨?_, ?_, ?_⟩ <;>
        simp [runTasks, taskOutcomes, failureMessages, ho, Outcome.isOk,
          h.1, h.2.1, h.2.2, List.filter]

/-- One outcome is produced for every task of a sequential run. -/
theorem taskOutcomes_length (settings : ExternalSyncSettings) (vb : String) :
    ∀ (ts : List SyncTask) (fs : FS),
      (taskOutcomes settings vb ts fs).length = ts.length := by
  intro ts
  induction ts with
  | nil => intro fs; rfl
  | cons t rest ih => intro fs; simp [taskOutcomes, ih]

/-- Splitting a list of outcomes by success adds up to its length. -/
theorem outcomes_filter_length (l : List Outcome) :
    (l.filter Outcome.isOk).length + (l.filter (fun o => !o.isOk)).length = l.length := by
  induction l with
  | nil => rfl
  | cons o rest ih =>
    cases ho : o.isOk <;> simp [List.filter, ho] <;> omega

/-- Counterexample for C7: an enabled failing task whose name is the empty
string. The reported failure message uses the task id (the source falls back
with name or-else id), so it does not have the claimed form
name colon reason, which here would be the message starting with the bare
colon. -/
theorem C7_counterexample :
    (syncAllTasks ⟨[⟨"t1", "", "", "B", true⟩], [], .mtime⟩ "/vault"
      [("/vault", .dir)]).1.failures = ["t1: 源路径为空"]
    ∧ (syncAllTasks ⟨[⟨"t1", "", "", "B", true⟩], [], .mtime⟩ "/vault"
      [("/vault", .dir)]).1.failures ≠ [": 源路径为空"] :=
  ⟨rfl, by decide⟩

/-- C7 (amended): syncAllTasks executes only the enabled tasks, in
submission order; when no task is enabled it executes nothing (the
filesystem is unchanged) and reports zero tasks run with the distinct
no-enabled-tasks notice; every enabled task receives an outcome (one
failure never prevents the remaining tasks from running), successCount and
failCount count the succeeding and failing enabled tasks and add up to the
number of enabled tasks, and the failure list carries exactly one message
per failed task in submission order, of the form name colon reason where
the name falls back to the task id when the name is empty. -/
theorem C7_run_all_aggregation (settings : ExternalSyncSettings) (vb : String) (fs : FS) :
    (settings.tasks.filter (fun t => t.enabled) = [] →
      syncAllTasks settings vb fs = (⟨0, 0, [], .noEnabledTasks⟩, fs))
    ∧ (syncAllTasks settings vb fs).1.successCount =
        ((taskOutcomes settings vb (settings.tasks.filter (fun t => t.enabled)) fs).filter
          Outcome.isOk).length
    ∧ (syncAllTasks settings vb fs).1.failCount =
        ((taskOutcomes settings vb (settings.tasks.filter (fun t => t.enabled)) fs).filter
          (fun o => !o.isOk)).length
    ∧ (syncAllTasks settings vb fs).1.successCount
        + (syncAllTasks settings vb fs).1.failCount =
        (settings.tasks.filter (fun t => t.enabled)).length
    ∧ (syncAllTasks settings vb fs).1.failures =
        failureMessages settings vb (settings.tasks.filter (fun t => t.enabled)) fs := by
  have hrun := runTasks_eq_spec settings vb (settings.tasks.filter (fun t => t.enabled)) fs
  have hlen := taskOutcomes_length settings vb (settings.tasks.filter (fun t => t.enabled)) fs
  have hfl := outcomes_filter_length
    (taskOutcomes settings vb (settings.tasks.filter (fun t => t.enabled)) fs)
  by_cases hnil : settings.tasks.filter (fun t => t.enabled) = []
  · refine ⟨fun _ => ?_, ?_, ?_, ?_, ?_⟩ <;>
      simp [syncAllTasks, hnil, taskOutcomes, failureMessages]
  · have hEmp : (settings.tasks.filter (fun t => t.enabled)).isEmpty = false := by
      cases h2 : settings.tasks.filter (fun t => t.enabled) with
      | nil => exact absurd h2 hnil
      | cons a l => rfl
    refine ⟨fun h => absurd h hnil, ?_, ?_, ?_, ?_⟩ <;>
      simp [syncAllTasks, hEmp, hrun.1, hrun.2.1, hrun.2.2]
    rw [← hlen, ← hfl]

/-- Witness for C7: a run with no enabled task reports zero tasks run and
leaves the filesystem unchanged; the three-enabled-task run in which task 2
fails validation reports successCount 2, failCount 1 and exactly the one
message naming task2 and its reason. -/
theorem C7_witness :
    syncAllTasks ⟨[⟨"t0", "z", "/a.txt", "A", false⟩], [], .mtime⟩ "/vault"
      [("/vault", .dir)] = (⟨0, 0, [], .noEnabledTasks⟩, [("/vault", .dir)])
    ∧ (syncAllTasks
        ⟨[⟨"t1", "task1", "/a.txt", "A", true⟩,
          ⟨"t2", "task2", "", "B", true⟩,
          ⟨"t3", "task3", "/c.txt", "C", true⟩], [], .mtime⟩ "/vault"
        [("/vault", .dir), ("/a.txt", .file [1] 0 true),
         ("/c.txt", .file [3] 0 true)]).1.successCount
      + (syncAllTasks
        ⟨[⟨"t1", "task1", "/a.txt", "A", true⟩,
          ⟨"t2", "task2", "", "B", true⟩,
          ⟨"t3", "task3", "/c.txt", "C", true⟩], [], .mtime⟩ "/vault"
        [("/vault", .dir), ("/a.txt", .file [1] 0 true),
         ("/c.txt", .file [3] 0 true)]).1.failCount = 3
    ∧ (syncAllTasks
        ⟨[⟨"t1", "task1", "/a.txt", "A", true⟩,
          ⟨"t2", "task2", "", "B", true⟩,
          ⟨"t3", "task3", "/c.txt", "C", true⟩], [], .mtime⟩ "/vault"
        [("/vault", .dir), ("/a.txt", .file [1] 0 true),
         ("/c.txt", .file [3] 0 true)]).1 =
        ⟨2, 1, ["task2: 源路径为空"], .doneNotice 2 1⟩ := by
  refine ⟨(C7_run_all_aggregation ⟨[⟨"t0", "z", "/a.txt", "A", false⟩], [], .mtime⟩
      "/vault" [("/vault", .dir)]).1 rfl, ?_, rfl⟩
  have h := (C7_run_all_aggregation
    ⟨[⟨"t1", "task1", "/a.txt", "A", true⟩,
      ⟨"t2", "task2", "", "B", true⟩,
      ⟨"t3", "task3", "/c.txt", "C", true⟩], [], .mtime⟩ "/vault"
    [("/vault", .dir), ("/a.txt", .file [1] 0 true),
     ("/c.txt", .file [3] 0 true)]).2.2.2.1
  exact h.trans rfl

end ESB

